import Mathlib

/-!
# FightLight project-state model, embedded from `src/hlc_core/models.py` and
# `src/hlc_ui/app.py`

Shallow embedding of the ProjectState data model of the FightLight
repository.  Python floats are modelled as exact rationals (`ℚ`): every
operation in scope only adds, subtracts, negates and compares, and all
concrete inputs in the development are small decimals, so no rounding
behaviour is observable.  pydantic construction/validation failures are
modelled with `Except ModelError` (or `Option` where the caller swallows the
exception), and in-place mutation of a model object is modelled by returning
the updated value.
-/

namespace HLC

/-- The error taxonomy of the model layer and the HTTP layer:
`validationError` models a pydantic `ValidationError`/`ValueError` raised at
construction, `notFoundError` the 404 "Highlight not found" response of the
`/select` route, `requiredError` its 400 "highlight_id is required" response,
and `noSelectionError` the 400 "No highlight selected" response of `/nudge`. -/
inductive ModelError where
  | validationError
  | notFoundError
  | requiredError
  | noSelectionError
deriving DecidableEq, Repr

/-- A JSON value as Python's `json` module hands it to pydantic: an object is
a parsed `dict`, kept as an association list in key order. -/
inductive Json where
  | null
  | bool (b : Bool)
  | num (v : ℚ)
  | str (s : String)
  | arr (elems : List Json)
  | obj (fields : List (String × Json))



/-! Decidable equality for `Json`, by simultaneous recursion over the
nested lists (`deriving` does not handle the nesting). -/

mutual

def Json.decEq : (a b : Json) → Decidable (a = b)
  | .null, .null => .isTrue rfl
  | .bool a, .bool b =>
    if h : a = b then .isTrue (by rw [h]) else .isFalse (by simp [h])
  | .num a, .num b =>
    if h : a = b then .isTrue (by rw [h]) else .isFalse (by simp [h])
  | .str a, .str b =>
    if h : a = b then .isTrue (by rw [h]) else .isFalse (by simp [h])
  | .arr as, .arr bs =>
    match Json.decEqList as bs with
    | .isTrue h => .isTrue (by rw [h])
    | .isFalse h => .isFalse (by simp [h])
  | .obj as, .obj bs =>
    match Json.decEqFields as bs with
    | .isTrue h => .isTrue (by rw [h])
    | .isFalse h => .isFalse (by simp [h])
  | .null, .bool _ => .isFalse (by simp)
  | .null, .num _ => .isFalse (by simp)
  | .null, .str _ => .isFalse (by simp)
  | .null, .arr _ => .isFalse (by simp)
  | .null, .obj _ => .isFalse (by simp)
  | .bool _, .null => .isFalse (by simp)
  | .bool _, .num _ => .isFalse (by simp)
  | .bool _, .str _ => .isFalse (by simp)
  | .bool _, .arr _ => .isFalse (by simp)
  | .bool _, .obj _ => .isFalse (by simp)
  | .num _, .null => .isFalse (by simp)
  | .num _, .bool _ => .isFalse (by simp)
  | .num _, .str _ => .isFalse (by simp)
  | .num _, .arr _ => .isFalse (by simp)
  | .num _, .obj _ => .isFalse (by simp)
  | .str _, .null => .isFalse (by simp)
  | .str _, .bool _ => .isFalse (by simp)
  | .str _, .num _ => .isFalse (by simp)
  | .str _, .arr _ => .isFalse (by simp)
  | .str _, .obj _ => .isFalse (by simp)
  | .arr _, .null => .isFalse (by simp)
  | .arr _, .bool _ => .isFalse (by simp)
  | .arr _, .num _ => .isFalse (by simp)
  | .arr _, .str _ => .isFalse (by simp)
  | .arr _, .obj _ => .isFalse (by simp)
  | .obj _, .null => .isFalse (by simp)
  | .obj _, .bool _ => .isFalse (by simp)
  | .obj _, .num _ => .isFalse (by simp)
  | .obj _, .str _ => .isFalse (by simp)
  | .obj _, .arr _ => .isFalse (by simp)

def Json.decEqList : (as bs : List Json) → Decidable (as = bs)
  | [], [] => .isTrue rfl
  | a :: as, b :: bs =>
    match Json.decEq a b, Json.decEqList as bs with
    | .isTrue h1, .isTrue h2 => .isTrue (by rw [h1, h2])
    | .isFalse h1, _ => .isFalse (by simp [h1])
    | _, .isFalse h2 => .isFalse (by simp [h2])
  | [], _ :: _ => .isFalse (by simp)
  | _ :: _, [] => .isFalse (by simp)

def Json.decEqFields : (as bs : List (String × Json)) → Decidable (as = bs)
  | [], [] => .isTrue rfl
  | (ka, va) :: as, (kb, vb) :: bs =>
    if hk : ka = kb then
      match Json.decEq va vb, Json.decEqFields as bs with
      | .isTrue h1, .isTrue h2 => .isTrue (by rw [hk, h1, h2])
      | .isFalse h1, _ => .isFalse (by simp [h1])
      | _, .isFalse h2 => .isFalse (by simp [h2])
    else .isFalse (by simp [hk])
  | [], _ :: _ => .isFalse (by simp)
  | _ :: _, [] => .isFalse (by simp)

end

instance : DecidableEq Json := Json.decEq

deriving instance DecidableEq for Except

/-- `TimeRange` of `models.py` lines 9-16: fields `start` and `end`. -/
structure TimeRange where
  start : ℚ
  «end» : ℚ
deriving DecidableEq, Repr

/-- Construction of a `TimeRange`, embedding pydantic's checks in the order
they run: the field constraint `ge=0` on `start`, the field constraint
`gt=0` on `end`, then `model_post_init` raising when `end <= start`
(`models.py` lines 11-16). -/
def TimeRange.create (s e : ℚ) : Except ModelError TimeRange :=
  if s < 0 then .error .validationError
  else if e ≤ 0 then .error .validationError
  else if e ≤ s then .error .validationError
  else .ok ⟨s, e⟩

/-- The derived duration of a range, as computed by the CLI at
`src/hlc_cli/main.py` line 111 (`end - start`); `models.py` defines no
method for it. -/
def TimeRange.duration (r : TimeRange) : ℚ := r.«end» - r.start

/-- The invariant `TimeRange.create` establishes: `start >= 0` and
`end > start`. -/
def TimeRange.Valid (r : TimeRange) : Prop := 0 ≤ r.start ∧ r.start < r.«end»

instance (r : TimeRange) : Decidable r.Valid := by
  unfold TimeRange.Valid; infer_instance

/-- `VideoFile` of `models.py` lines 19-25. -/
structure VideoFile where
  path : String
  duration : Option ℚ
  fps : Option ℚ
  width : Option ℤ
  height : Option ℤ
deriving DecidableEq, Repr

/-- Construction of a `VideoFile`: `models.py` lines 19-25 declare no field
constraint and no validator, so pydantic accepts every string `path`
(including the empty string) and stores all metadata fields verbatim. -/
def VideoFile.create (path : String) (duration fps : Option ℚ)
    (width height : Option ℤ) : Except ModelError VideoFile :=
  .ok ⟨path, duration, fps, width, height⟩

/-- `Highlight` of `models.py` lines 28-34. -/
structure Highlight where
  id : String
  name : String
  time_range : TimeRange
  description : Option String
  tags : List String
deriving DecidableEq, Repr

/-- `ProjectState` of `models.py` lines 37-43.  `export_settings` is an
open-ended `dict`, modelled as the association list of a parsed JSON
object. -/
structure ProjectState where
  project_name : String
  video_file : Option VideoFile
  highlights : List Highlight
  selected_highlight_id : Option String
  export_settings : List (String × Json)
deriving DecidableEq

/-- `ProjectState.get_selected_highlight` (`models.py` lines 45-52).  The
guard `if not self.selected_highlight_id` is a Python falsiness test: it
returns `None` both when the field is `None` and when it is the empty
string; otherwise the loop returns the first highlight whose id matches. -/
def ProjectState.get_selected_highlight (p : ProjectState) : Option Highlight :=
  match p.selected_highlight_id with
  | none => none
  | some sid =>
    if sid = "" then none
    else p.highlights.find? (fun h => h.id == sid)

/-- `ProjectState.add_highlight` (`models.py` lines 54-56): an unconditional
append, with no duplicate-id check. -/
def ProjectState.add_highlight (p : ProjectState) (h : Highlight) : ProjectState :=
  { p with highlights := p.highlights ++ [h] }

/-- The loop of `ProjectState.remove_highlight` (`models.py` lines 60-66):
`some` of the list with the first matching element popped, or `none` when no
element matches. -/
def removeFirstHighlight (hid : String) : List Highlight → Option (List Highlight)
  | [] => none
  | h :: rest =>
    if h.id = hid then some rest
    else match removeFirstHighlight hid rest with
      | none => none
      | some rest' => some (h :: rest')

/-- `ProjectState.remove_highlight` (`models.py` lines 58-66): pops the first
highlight whose id matches and returns `True`, clearing
`selected_highlight_id` when it compares equal to the removed id; returns
`False` with the state untouched when nothing matches.  The Python method
mutates `self` and returns the flag; it is modelled as a flag/state pair. -/
def ProjectState.remove_highlight (p : ProjectState) (hid : String) :
    Bool × ProjectState :=
  match removeFirstHighlight hid p.highlights with
  | some hs =>
    (true,
      { p with
          highlights := hs
          selected_highlight_id :=
            if p.selected_highlight_id = some hid then none
            else p.selected_highlight_id })
  | none => (false, p)

/-- The `/select` route of `src/hlc_ui/app.py` lines 188-210, on an
already-loaded project: the Python falsiness guard
`if not highlight_id` answers 400 "highlight_id is required" for the empty
string before anything else, the existence scan
`any(h.id == highlight_id for h in project.highlights)` answers 404
"Highlight not found", and otherwise `selected_highlight_id` is assigned and
the state saved.  File loading/saving is abstracted away: the function maps
the loaded state to the saved one or to the error response. -/
def select_highlight (p : ProjectState) (hid : String) :
    Except ModelError ProjectState :=
  if hid = "" then .error .requiredError
  else if !p.highlights.any (fun h => h.id == hid) then .error .notFoundError
  else .ok { p with selected_highlight_id := some hid }

/-- The in-place assignment `selected.time_range = ...` of the `/nudge` and
`/update-range` routes: `selected` aliases the first list entry whose id
matches, so the assignment replaces the range of the first highlight with
the given id. -/
def setRangeOfFirst (hid : String) (r : TimeRange) :
    List Highlight → List Highlight
  | [] => []
  | h :: rest =>
    if h.id = hid then { h with time_range := r } :: rest
    else h :: setRangeOfFirst hid r rest

/-- The `/nudge` route of `src/hlc_ui/app.py` lines 240-264, on an
already-loaded project: without a selected highlight it answers 400
"No highlight selected"; otherwise it builds
`TimeRange(start=max(0, start + offset), end=end + offset)`, answering 400
"Invalid nudge operation" when that construction raises (the state is then
never saved), and saving the state with the selected highlight's range
replaced when it succeeds. -/
def nudge (p : ProjectState) (offset : ℚ) : Except ModelError ProjectState :=
  match p.get_selected_highlight with
  | none => .error .noSelectionError
  | some sel =>
    match TimeRange.create (max 0 (sel.time_range.start + offset))
        (sel.time_range.«end» + offset) with
    | .error e => .error e
    | .ok r => .ok { p with highlights := setRangeOfFirst sel.id r p.highlights }

/-! ## Serialization (`model_dump`) and deserialization (`model_validate`)

`save_project_state` writes `json.dump(state.model_dump(), f)` and
`load_project_state` reads `ProjectState.model_validate(json.load(f))`,
returning `None` on any exception (`src/hlc_ui/app.py` lines 95-117, and the
same pair in `src/hlc_cli/main.py`).  `model_dump` emits every field under
its declared name in declaration order; `model_validate` checks the shape of
each field, applies the declared defaults for absent keys, ignores unknown
keys, and re-runs every field constraint and `model_post_init`. -/

/-- `TimeRange.model_dump`. -/
def TimeRange.model_dump (r : TimeRange) : Json :=
  .obj [("start", .num r.start), ("end", .num r.«end»)]

/-- An optional float dumps as the number or JSON `null`. -/
def dumpOptNum (v : Option ℚ) : Json :=
  match v with
  | none => .null
  | some q => .num q

/-- An optional integer dumps as the number or JSON `null`. -/
def dumpOptInt (v : Option ℤ) : Json :=
  match v with
  | none => .null
  | some n => .num (n : ℚ)

/-- An optional string dumps as the string or JSON `null`. -/
def dumpOptStr (v : Option String) : Json :=
  match v with
  | none => .null
  | some s => .str s

/-- `VideoFile.model_dump`. -/
def VideoFile.model_dump (v : VideoFile) : Json :=
  .obj [("path", .str v.path), ("duration", dumpOptNum v.duration),
    ("fps", dumpOptNum v.fps), ("width", dumpOptInt v.width),
    ("height", dumpOptInt v.height)]

/-- `Highlight.model_dump`. -/
def Highlight.model_dump (h : Highlight) : Json :=
  .obj [("id", .str h.id), ("name", .str h.name),
    ("time_range", h.time_range.model_dump),
    ("description", dumpOptStr h.description),
    ("tags", .arr (h.tags.map .str))]

/-- `ProjectState.model_dump`. -/
def ProjectState.model_dump (p : ProjectState) : Json :=
  .obj [("project_name", .str p.project_name),
    ("video_file",
      match p.video_file with
      | none => .null
      | some v => v.model_dump),
    ("highlights", .arr (p.highlights.map Highlight.model_dump)),
    ("selected_highlight_id", dumpOptStr p.selected_highlight_id),
    ("export_settings", .obj p.export_settings)]

/-- A required `str` field: pydantic accepts exactly a JSON string. -/
def parseStr (j : Json) : Option String :=
  match j with
  | .str s => some s
  | _ => none

/-- An `Optional[str]` field with default `None`: JSON `null` or a string. -/
def parseOptStr (j : Json) : Option (Option String) :=
  match j with
  | .null => some none
  | .str s => some (some s)
  | _ => none

/-- A required `float` field: a JSON number (ints coerce to floats). -/
def parseNum (j : Json) : Option ℚ :=
  match j with
  | .num q => some q
  | _ => none

/-- An `Optional[float]` field with default `None`. -/
def parseOptNum (j : Json) : Option (Option ℚ) :=
  match j with
  | .null => some none
  | .num q => some (some q)
  | _ => none

/-- An `Optional[int]` field with default `None`: pydantic accepts a JSON
number with no fractional part. -/
def parseOptInt (j : Json) : Option (Option ℤ) :=
  match j with
  | .null => some none
  | .num q => if q.den = 1 then some (some q.num) else none
  | _ => none

/-- `TimeRange.model_validate`: both fields are required numbers, and
construction re-runs the field constraints and `model_post_init` (embedded
in `TimeRange.create`). -/
def TimeRange.model_validate (j : Json) : Option TimeRange :=
  match j with
  | .obj fs =>
    match (fs.lookup "start").bind parseNum with
    | none => none
    | some s =>
      match (fs.lookup "end").bind parseNum with
      | none => none
      | some e =>
        match TimeRange.create s e with
        | .ok r => some r
        | .error _ => none
  | _ => none

/-- `VideoFile.model_validate`: `path` is a required string (no further
constraint), the metadata fields are optional with default `None` (an
absent key and JSON `null` both give `None`). -/
def VideoFile.model_validate (j : Json) : Option VideoFile :=
  match j with
  | .obj fs =>
    match (fs.lookup "path").bind parseStr with
    | none => none
    | some path =>
      match parseOptNum ((fs.lookup "duration").getD .null) with
      | none => none
      | some duration =>
        match parseOptNum ((fs.lookup "fps").getD .null) with
        | none => none
        | some fps =>
          match parseOptInt ((fs.lookup "width").getD .null) with
          | none => none
          | some width =>
            match parseOptInt ((fs.lookup "height").getD .null) with
            | none => none
            | some height => some ⟨path, duration, fps, width, height⟩
  | _ => none

/-- A `List[str]` field: a JSON array of strings. -/
def parseStrList (j : Json) : Option (List String) :=
  match j with
  | .arr xs => xs.mapM parseStr
  | _ => none

/-- `Highlight.model_validate`: `id`, `name` and `time_range` are required,
`description` defaults to `None` and `tags` to the empty list
(`default_factory=list`). -/
def Highlight.model_validate (j : Json) : Option Highlight :=
  match j with
  | .obj fs =>
    match (fs.lookup "id").bind parseStr with
    | none => none
    | some hid =>
      match (fs.lookup "name").bind parseStr with
      | none => none
      | some name =>
        match (fs.lookup "time_range").bind TimeRange.model_validate with
        | none => none
        | some tr =>
          match parseOptStr ((fs.lookup "description").getD .null) with
          | none => none
          | some descr =>
            match parseStrList ((fs.lookup "tags").getD (.arr [])) with
            | none => none
            | some tags => some ⟨hid, name, tr, descr, tags⟩
  | _ => none

/-- The last three fields of `ProjectState.model_validate`, shared by its
two `video_file` branches. -/
def validateRest (fs : List (String × Json)) (name : String)
    (video : Option VideoFile) : Option ProjectState :=
  match (fs.lookup "highlights").getD (.arr []) with
  | .arr hjs =>
    match hjs.mapM Highlight.model_validate with
    | none => none
    | some hls =>
      match parseOptStr ((fs.lookup "selected_highlight_id").getD .null) with
      | none => none
      | some sel =>
        match (fs.lookup "export_settings").getD (.obj []) with
        | .obj es => some ⟨name, video, hls, sel, es⟩
        | _ => none
  | _ => none

/-- `ProjectState.model_validate`: `project_name` is required;
`video_file` and `selected_highlight_id` default to `None`; `highlights`
defaults to the empty list and `export_settings` to the empty dict (both via
`default_factory`).  Every nested model is re-validated, and any failure
anywhere fails the whole load (`load_project_state` then returns `None`,
`src/hlc_ui/app.py` lines 95-106). -/
def ProjectState.model_validate (j : Json) : Option ProjectState :=
  match j with
  | .obj fs =>
    match (fs.lookup "project_name").bind parseStr with
    | none => none
    | some name =>
      match (fs.lookup "video_file").getD .null with
      | .null => validateRest fs name none
      | jv =>
        match VideoFile.model_validate jv with
        | none => none
        | some v => validateRest fs name (some v)
  | _ => none

instance optionElimTrueDecidable {α : Type} (o : Option α) (q : α → Prop)
    [DecidablePred q] : Decidable (o.elim True q) :=
  match o with
  | none => .isTrue trivial
  | some a => inferInstanceAs (Decidable (q a))

/-- The aggregate invariant of the spec's §3: every highlight's range is
valid, a set `selected_highlight_id` is matched by exactly one highlight,
and a set `video_file` has a non-empty path. -/
def ProjectState.Valid (p : ProjectState) : Prop :=
  (∀ h ∈ p.highlights, h.time_range.Valid) ∧
  p.selected_highlight_id.elim True
    (fun sid => (p.highlights.filter (fun h => h.id == sid)).length = 1) ∧
  p.video_file.elim True (fun v => v.path ≠ "")

instance (p : ProjectState) : Decidable p.Valid := by
  unfold ProjectState.Valid; infer_instance

/-! ## Concrete states used by the closed theorems -/

/-- A highlight whose id is the empty string — accepted by the models, whose
`id` field has no constraint. -/
def emptyIdHighlight : Highlight := ⟨"", "Jab", ⟨5, 15⟩, none, []⟩

/-- A second, distinct highlight whose id is also the empty string. -/
def emptyIdHighlightB : Highlight := ⟨"", "Cross", ⟨20, 30⟩, none, []⟩

/-- A project whose only highlight has the empty id and whose selection is
the empty string (reachable by direct field assignment or by loading a JSON
document with `"selected_highlight_id": ""`). -/
def emptyIdState : ProjectState := ⟨"Fight Night", none, [emptyIdHighlight], some "", []⟩

/-- A project with two highlights sharing the empty id, the empty string
selected. -/
def dupEmptyState : ProjectState :=
  ⟨"Fight Night", none, [emptyIdHighlight, emptyIdHighlightB], some "", []⟩

/-- A highlight with id `"h1"`. -/
def jabHighlight : Highlight := ⟨"h1", "Jab", ⟨5, 15⟩, none, ["punch"]⟩

/-- A second highlight that reuses the id `"h1"`. -/
def jabHighlightDup : Highlight := ⟨"h1", "Hook", ⟨40, 50⟩, none, []⟩

/-- A project holding `jabHighlight`, with it selected. -/
def jabState : ProjectState := ⟨"Fight Night", none, [jabHighlight], some "h1", []⟩

/-- A valid project exercising every field, used for the round-trip
witness. -/
def rtState : ProjectState :=
  ⟨"Serialization Test", some ⟨"/test/video.mp4", some 60, some 30, some 1920, some 1080⟩,
    [⟨"serialize-test", "Serialization Highlight", ⟨10, 25⟩,
      some "Test serialization", ["boxing", "demo"]⟩],
    some "serialize-test", [("quality", .str "high")]⟩

/-- A highlight with range `[10, 20]`, as in the spec's nudge example. -/
def nudgeHighlight : Highlight := ⟨"h1", "Jab", ⟨10, 20⟩, none, []⟩

/-- A project with `nudgeHighlight` selected. -/
def nudgeState : ProjectState := ⟨"Fight Night", none, [nudgeHighlight], some "h1", []⟩

/-- A project holding two highlights that share the id `"h1"`, the first one
selected. -/
def dupState : ProjectState :=
  ⟨"Fight Night", none, [jabHighlight, jabHighlightDup], some "h1", []⟩

/-- A JSON document that is shape-correct but carries a dangling
`selected_highlight_id`: no highlight has id `"ghost"`. -/
def danglingDoc : Json :=
  .obj [("project_name", .str "P"), ("video_file", .null),
    ("highlights", .arr []), ("selected_highlight_id", .str "ghost"),
    ("export_settings", .obj [])]

/-- The state `danglingDoc` loads to. -/
def danglingState : ProjectState := ⟨"P", none, [], some "ghost", []⟩

/-! ## Helper lemmas -/

theorem removeFirst_append_first (hid : String) (l1 l2 : List Highlight)
    (h : Highlight) (hh : h.id = hid) (hl1 : ∀ x ∈ l1, x.id ≠ hid) :
    removeFirstHighlight hid (l1 ++ h :: l2) = some (l1 ++ l2) := by
  induction l1 with
  | nil => simp [removeFirstHighlight, hh]
  | cons a as ih =>
    have ha : a.id ≠ hid := hl1 a (by simp)
    rw [List.cons_append, removeFirstHighlight, if_neg ha,
      ih (fun x hx => hl1 x (by simp [hx]))]
    simp

theorem removeFirst_eq_none (hid : String) (l : List Highlight)
    (hl : ∀ x ∈ l, x.id ≠ hid) : removeFirstHighlight hid l = none := by
  induction l with
  | nil => rfl
  | cons a as ih =>
    rw [removeFirstHighlight, if_neg (hl a (by simp)),
      ih (fun x hx => hl x (by simp [hx]))]

theorem find_id_append_first (sid : String) (l1 l2 : List Highlight)
    (h : Highlight) (hh : h.id = sid) (hl1 : ∀ x ∈ l1, x.id ≠ sid) :
    (l1 ++ h :: l2).find? (fun x => x.id == sid) = some h := by
  induction l1 with
  | nil => simp [List.find?_cons, hh]
  | cons a as ih =>
    have ha : (a.id == sid) = false := by
      simpa using hl1 a (by simp)
    rw [List.cons_append, List.find?_cons, ha,
      ih (fun x hx => hl1 x (by simp [hx]))]

theorem setRange_append_first (sid : String) (r : TimeRange)
    (l1 l2 : List Highlight) (h : Highlight) (hh : h.id = sid)
    (hl1 : ∀ x ∈ l1, x.id ≠ sid) :
    setRangeOfFirst sid r (l1 ++ h :: l2)
      = l1 ++ { h with time_range := r } :: l2 := by
  induction l1 with
  | nil => simp [setRangeOfFirst, hh]
  | cons a as ih =>
    rw [List.cons_append, setRangeOfFirst, if_neg (hl1 a (by simp)),
      ih (fun x hx => hl1 x (by simp [hx])), List.cons_append]

theorem parseOptStr_dump (v : Option String) :
    parseOptStr (dumpOptStr v) = some v := by
  cases v <;> rfl

theorem parseOptNum_dump (v : Option ℚ) :
    parseOptNum (dumpOptNum v) = some v := by
  cases v <;> rfl

theorem parseOptInt_dump (v : Option ℤ) :
    parseOptInt (dumpOptInt v) = some v := by
  cases v with
  | none => rfl
  | some n => simp [parseOptInt, dumpOptInt]

theorem parseStrList_dump (ts : List String) :
    parseStrList (.arr (ts.map .str)) = some ts := by
  show (ts.map Json.str).mapM parseStr = some ts
  induction ts with
  | nil => rfl
  | cons t ts ih =>
    rw [List.map_cons, List.mapM_cons, ih]
    rfl

theorem timeRange_validate_dump (r : TimeRange) (hr : r.Valid) :
    TimeRange.model_validate r.model_dump = some r := by
  obtain ⟨hs, hlt⟩ := hr
  show (match TimeRange.create r.start r.«end» with
    | .ok x => some x
    | .error _ => none) = some r
  unfold TimeRange.create
  rw [if_neg (by linarith), if_neg (by linarith), if_neg (by linarith)]

theorem videoFile_validate_dump (v : VideoFile) :
    VideoFile.model_validate v.model_dump = some v := by
  show (match parseOptNum (dumpOptNum v.duration) with
    | none => none
    | some duration =>
      match parseOptNum (dumpOptNum v.fps) with
      | none => none
      | some fps =>
        match parseOptInt (dumpOptInt v.width) with
        | none => none
        | some width =>
          match parseOptInt (dumpOptInt v.height) with
          | none => none
          | some height => some ⟨v.path, duration, fps, width, height⟩) = some v
  rw [parseOptNum_dump, parseOptNum_dump, parseOptInt_dump, parseOptInt_dump]

theorem highlight_validate_dump (h : Highlight) (hr : h.time_range.Valid) :
    Highlight.model_validate h.model_dump = some h := by
  show (match TimeRange.model_validate h.time_range.model_dump with
    | none => none
    | some tr =>
      match parseOptStr (dumpOptStr h.description) with
      | none => none
      | some descr =>
        match parseStrList (.arr (h.tags.map .str)) with
        | none => none
        | some tags => some ⟨h.id, h.name, tr, descr, tags⟩) = some h
  rw [timeRange_validate_dump h.time_range hr, parseOptStr_dump, parseStrList_dump]

theorem highlights_validate_dump (ls : List Highlight)
    (hv : ∀ h ∈ ls, h.time_range.Valid) :
    (ls.map Highlight.model_dump).mapM Highlight.model_validate = some ls := by
  induction ls with
  | nil => rfl
  | cons a as ih =>
    rw [List.map_cons, List.mapM_cons,
      highlight_validate_dump a (hv a (by simp)),
      ih (fun x hx => hv x (by simp [hx]))]
    rfl

theorem projectState_validate_dump (p : ProjectState)
    (hv : ∀ h ∈ p.highlights, h.time_range.Valid) :
    ProjectState.model_validate p.model_dump = some p := by
  obtain ⟨name, vf, hls, sel, es⟩ := p
  have hhl : (hls.map Highlight.model_dump).mapM Highlight.model_validate
      = some hls := highlights_validate_dump hls (by simpa using hv)
  rcases vf with _ | v
  · show (match (hls.map Highlight.model_dump).mapM Highlight.model_validate with
      | none => none
      | some hls' =>
        match parseOptStr (dumpOptStr sel) with
        | none => none
        | some sel' =>
          some (⟨name, none, hls', sel', es⟩ : ProjectState)) = some _
    rw [hhl, parseOptStr_dump]
  · show (match VideoFile.model_validate v.model_dump with
      | none => none
      | some v' =>
        match (hls.map Highlight.model_dump).mapM Highlight.model_validate with
        | none => none
        | some hls' =>
          match parseOptStr (dumpOptStr sel) with
          | none => none
          | some sel' =>
            some (⟨name, some v', hls', sel', es⟩ : ProjectState)) = some _
    rw [videoFile_validate_dump, hhl, parseOptStr_dump]

theorem create_ok_valid (s e : ℚ) (r : TimeRange)
    (h : TimeRange.create s e = .ok r) : r.Valid := by
  unfold TimeRange.create at h
  split at h
  · exact absurd h (by simp)
  next h1 =>
  split at h
  · exact absurd h (by simp)
  next h2 =>
  split at h
  · exact absurd h (by simp)
  next h3 =>
  cases h
  exact ⟨by linarith, by linarith⟩

theorem timeRange_validate_valid (j : Json) (r : TimeRange)
    (h : TimeRange.model_validate j = some r) : r.Valid := by
  cases j with
  | obj fs =>
    simp only [TimeRange.model_validate] at h
    rcases hs : (fs.lookup "start").bind parseNum with _ | sv
    · simp only [hs] at h
      exact Option.noConfusion h
    · simp only [hs] at h
      rcases he : (fs.lookup "end").bind parseNum with _ | ev
      · simp only [he] at h
        exact Option.noConfusion h
      · simp only [he] at h
        rcases hx : TimeRange.create sv ev with e' | x
        · simp only [hx] at h
          exact Option.noConfusion h
        · simp only [hx] at h
          obtain rfl := Option.some.inj h
          exact create_ok_valid sv ev _ hx
  | null => exact Option.noConfusion h
  | bool b => exact Option.noConfusion h
  | num q => exact Option.noConfusion h
  | str s2 => exact Option.noConfusion h
  | arr xs => exact Option.noConfusion h

theorem highlight_validate_valid (j : Json) (h : Highlight)
    (hv : Highlight.model_validate j = some h) : h.time_range.Valid := by
  cases j with
  | obj fs =>
    simp only [Highlight.model_validate] at hv
    rcases h1 : (fs.lookup "id").bind parseStr with _ | hid
    · simp only [h1] at hv
      exact Option.noConfusion hv
    · simp only [h1] at hv
      rcases h2 : (fs.lookup "name").bind parseStr with _ | nm
      · simp only [h2] at hv
        exact Option.noConfusion hv
      · simp only [h2] at hv
        rcases h3 : (fs.lookup "time_range").bind TimeRange.model_validate with _ | tr
        · simp only [h3] at hv
          exact Option.noConfusion hv
        · simp only [h3] at hv
          rcases h4 : parseOptStr ((fs.lookup "description").getD .null) with _ | ds
          · simp only [h4] at hv
            exact Option.noConfusion hv
          · simp only [h4] at hv
            rcases h5 : parseStrList ((fs.lookup "tags").getD (.arr [])) with _ | tg
            · simp only [h5] at hv
              exact Option.noConfusion hv
            · simp only [h5] at hv
              obtain rfl := Option.some.inj hv
              obtain ⟨j2, hj2, hval⟩ := Option.bind_eq_some.mp h3
              exact timeRange_validate_valid j2 tr hval
  | null => exact Option.noConfusion hv
  | bool b => exact Option.noConfusion hv
  | num q => exact Option.noConfusion hv
  | str s2 => exact Option.noConfusion hv
  | arr xs => exact Option.noConfusion hv

theorem mapM_validate_valid (js : List Json) (ls : List Highlight)
    (h : js.mapM Highlight.model_validate = some ls) :
    ∀ x ∈ ls, x.time_range.Valid := by
  induction js generalizing ls with
  | nil =>
    obtain rfl := Option.some.inj h
    simp
  | cons j js ih =>
    rw [List.mapM_cons] at h
    rcases hj : Highlight.model_validate j with _ | x
    · simp only [hj, Option.none_bind] at h
      exact Option.noConfusion h
    · rcases hjs : js.mapM Highlight.model_validate with _ | xs
      · simp only [hj, hjs, Option.some_bind, Option.none_bind] at h
        exact Option.noConfusion h
      · simp only [hj, hjs, Option.some_bind, Option.pure_def] at h
        obtain rfl := Option.some.inj h
        intro y hy
        rcases List.mem_cons.mp hy with rfl | hmem
        · exact highlight_validate_valid j y hj
        · exact ih xs hjs y hmem

theorem validateRest_valid (fs : List (String × Json)) (name : String)
    (vf : Option VideoFile) (p : ProjectState)
    (h : validateRest fs name vf = some p) :
    ∀ x ∈ p.highlights, x.time_range.Valid := by
  unfold validateRest at h
  rcases h1 : (fs.lookup "highlights").getD (.arr []) with _ | b | q | st | hjs | ofs <;>
    simp only [h1] at h <;> try exact Option.noConfusion h
  rcases h2 : hjs.mapM Highlight.model_validate with _ | hls
  · simp only [h2] at h
    exact Option.noConfusion h
  · simp only [h2] at h
    rcases h3 : parseOptStr ((fs.lookup "selected_highlight_id").getD .null) with _ | sel
    · simp only [h3] at h
      exact Option.noConfusion h
    · simp only [h3] at h
      rcases h4 : (fs.lookup "export_settings").getD (.obj []) with _ | b | q | st | xs | es <;>
        simp only [h4] at h <;> try exact Option.noConfusion h
      obtain rfl := Option.some.inj h
      exact fun x hx => mapM_validate_valid hjs hls h2 x hx

/-! ## The claims -/

/-- C1: `remove_highlight(id)` removes exactly the first highlight whose id
equals `id` and returns `true` when one exists, clearing
`selected_highlight_id` exactly when it equaled the removed id (every other
field untouched); with no match it returns `false` and leaves every field of
the state unchanged.  The first conjunct fixes an arbitrary decomposition of
the list around the first match; the second covers the no-match case. -/
theorem remove_highlight_spec (p : ProjectState) (hid : String) :
    (∀ l1 h l2, p.highlights = l1 ++ h :: l2 → h.id = hid →
      (∀ x ∈ l1, x.id ≠ hid) →
      p.remove_highlight hid = (true,
        { p with
            highlights := l1 ++ l2
            selected_highlight_id :=
              if p.selected_highlight_id = some hid then none
              else p.selected_highlight_id })) ∧
    ((∀ h ∈ p.highlights, h.id ≠ hid) →
      p.remove_highlight hid = (false, p)) := by
  constructor
  · intro l1 h l2 hdec hh hl1
    unfold ProjectState.remove_highlight
    rw [hdec, removeFirst_append_first hid l1 l2 h hh hl1]
  · intro hnone
    unfold ProjectState.remove_highlight
    rw [removeFirst_eq_none hid p.highlights hnone]

/-- C2: `TimeRange(start, end)` succeeds exactly when `start >= 0` and
`end > start`, storing the endpoints verbatim (no clamping); the derived
duration is then `end - start > 0`.  On any violation construction fails
with a validation error. -/
theorem timeRange_create_spec (s e : ℚ) :
    (0 ≤ s ∧ s < e →
      TimeRange.create s e = .ok ⟨s, e⟩ ∧
      TimeRange.duration ⟨s, e⟩ = e - s ∧ 0 < TimeRange.duration ⟨s, e⟩) ∧
    (¬(0 ≤ s ∧ s < e) → TimeRange.create s e = .error .validationError) := by
  constructor
  · rintro ⟨hs, hlt⟩
    refine ⟨?_, rfl, ?_⟩
    · unfold TimeRange.create
      rw [if_neg (by linarith), if_neg (by linarith), if_neg (by linarith)]
    · show 0 < e - s
      linarith
  · intro hno
    unfold TimeRange.create
    by_cases hs : s < 0
    · rw [if_pos hs]
    · by_cases he : e ≤ 0
      · rw [if_neg hs, if_pos he]
      · rw [if_neg hs, if_neg he, if_pos (by push_neg at hno hs he; exact hno hs)]

/-- C3 counterexample: with `selected_highlight_id = some ""` and a
highlight whose id is `""` present, the claim says the matching highlight is
returned, but the code's falsiness guard returns `None`. -/
theorem get_selected_empty_id_cex :
    emptyIdState.selected_highlight_id = some "" ∧
    (∃ h ∈ emptyIdState.highlights, h.id = "") ∧
    emptyIdState.get_selected_highlight = none :=
  ⟨rfl, ⟨emptyIdHighlight, by decide, rfl⟩, rfl⟩

/-- C3 amended: `get_selected_highlight()` returns `None` exactly when
`selected_highlight_id` is `None`, or is the empty string, or no highlight
carries it; for a non-empty selected id that is carried, it returns the
first highlight whose id matches.  (The call is a pure query: the embedding
returns a value and touches no field.) -/
theorem get_selected_spec (p : ProjectState) :
    (p.get_selected_highlight = none ↔
      p.selected_highlight_id = none ∨ p.selected_highlight_id = some "" ∨
        ∀ h ∈ p.highlights, some h.id ≠ p.selected_highlight_id) ∧
    (∀ sid l1 h l2, p.selected_highlight_id = some sid → sid ≠ "" →
      p.highlights = l1 ++ h :: l2 → h.id = sid → (∀ x ∈ l1, x.id ≠ sid) →
      p.get_selected_highlight = some h) := by
  constructor
  · rcases hsel : p.selected_highlight_id with _ | sid
    · simp [ProjectState.get_selected_highlight, hsel]
    · by_cases hempty : sid = ""
      · subst hempty
        simp [ProjectState.get_selected_highlight, hsel]
      · simp only [ProjectState.get_selected_highlight, hsel, if_neg hempty]
        rw [List.find?_eq_none]
        constructor
        · intro hn
          right; right
          intro h hm
          have := hn h hm
          simpa using this
        · rintro (h1 | h2 | h3)
          · exact Option.noConfusion h1
          · exact absurd (Option.some.inj h2) hempty
          · intro h hm
            have := h3 h hm
            simpa using this
  · intro sid l1 h l2 hsel hempty hdec hl1
    intro hfirst
    simp only [ProjectState.get_selected_highlight, hsel, if_neg hempty, hdec]
    exact find_id_append_first sid l1 l2 h hl1 hfirst

/-- C4: on a state whose selection resolves to a highlight `sel`, nudging by
`offset` replaces `sel`'s range with
`[max(0, start + offset), end + offset)` when that interval still satisfies
`end > start`, and fails with a validation error (no state is saved, so the
range is unchanged) when it does not; the new start is clamped at `0`, the
new end is unclamped. -/
theorem nudge_spec (p : ProjectState) (sid : String) (l1 : List Highlight)
    (sel : Highlight) (l2 : List Highlight) (offset : ℚ)
    (hsel : p.selected_highlight_id = some sid) (hne : sid ≠ "")
    (hdec : p.highlights = l1 ++ sel :: l2) (hid : sel.id = sid)
    (hl1 : ∀ x ∈ l1, x.id ≠ sid) :
    (max 0 (sel.time_range.start + offset) < sel.time_range.«end» + offset →
      nudge p offset = .ok
        { p with highlights := l1 ++
            { sel with time_range :=
                ⟨max 0 (sel.time_range.start + offset),
                  sel.time_range.«end» + offset⟩ } :: l2 }) ∧
    (sel.time_range.«end» + offset ≤ max 0 (sel.time_range.start + offset) →
      nudge p offset = .error .validationError) := by
  have hget : p.get_selected_highlight = some sel := by
    simp only [ProjectState.get_selected_highlight, hsel, if_neg hne, hdec]
    exact find_id_append_first sid l1 l2 sel hid hl1
  have hmax : ¬ max 0 (sel.time_range.start + offset) < 0 :=
    not_lt.mpr (le_max_left 0 _)
  constructor
  · intro hvalid
    have hpos : 0 < sel.time_range.«end» + offset :=
      lt_of_le_of_lt (le_max_left 0 _) hvalid
    have hcreate : TimeRange.create (max 0 (sel.time_range.start + offset))
        (sel.time_range.«end» + offset)
          = .ok ⟨max 0 (sel.time_range.start + offset),
              sel.time_range.«end» + offset⟩ := by
      unfold TimeRange.create
      rw [if_neg hmax, if_neg (not_le.mpr hpos), if_neg (not_le.mpr hvalid)]
    simp only [nudge, hget, hcreate]
    rw [hdec, setRange_append_first sel.id _ l1 l2 sel rfl
      (fun x hx => hid ▸ hl1 x hx)]
  · intro hinvalid
    have hcreate : TimeRange.create (max 0 (sel.time_range.start + offset))
        (sel.time_range.«end» + offset) = .error .validationError := by
      unfold TimeRange.create
      rw [if_neg hmax]
      by_cases he0 : sel.time_range.«end» + offset ≤ 0
      · rw [if_pos he0]
      · rw [if_neg he0, if_pos hinvalid]
    simp only [nudge, hget, hcreate]

/-- C5: serializing any project state satisfying the model invariants and
deserializing the result restores the state, field for field, through the
exact JSON shape of the spec's §6. -/
theorem serialize_roundtrip (p : ProjectState) (hval : p.Valid) :
    ProjectState.model_validate p.model_dump = some p :=
  projectState_validate_dump p hval.1

/-- C5 witness: the round trip evaluated on a concrete state exercising
every field. -/
theorem serialize_roundtrip_witness :
    ProjectState.model_validate (ProjectState.model_dump rtState)
      = some rtState :=
  serialize_roundtrip rtState (by decide)

/-- C6 (failing input): `add_highlight` on a project already holding a
highlight with id `"h1"` silently appends a second highlight with the same
id — the claimed `DuplicateIdError` does not exist in the code, and the
resulting list carries the id twice. -/
theorem add_highlight_duplicate_eval :
    (∃ x ∈ jabState.highlights, x.id = jabHighlightDup.id) ∧
    jabState.add_highlight jabHighlightDup
      = ⟨"Fight Night", none, [jabHighlight, jabHighlightDup], some "h1", []⟩ ∧
    ((jabState.add_highlight jabHighlightDup).highlights.filter
      (fun x => x.id == "h1")).length = 2 :=
  ⟨⟨jabHighlight, by decide, rfl⟩, rfl, by decide⟩

/-- C7 counterexample: a shape-correct document with
`selected_highlight_id = "ghost"` and no highlight with that id loads
successfully — deserialization does not re-validate the aggregate
selected-id invariant, so the claim's "fails on any invariant violation"
is false. -/
theorem deserialize_dangling_cex :
    ProjectState.model_validate danglingDoc = some danglingState ∧
    danglingState.selected_highlight_id = some "ghost" ∧
    (¬ ∃ h ∈ danglingState.highlights, h.id = "ghost") ∧
    ¬ danglingState.Valid :=
  ⟨by with_unfolding_all exact rfl, rfl, by decide, by decide⟩

/-- C7 amended: deserialization re-validates every per-value invariant and
fails the whole load (no partial state) on any violation — in particular any
state it produces has only valid time ranges — but it does not re-validate
the aggregate invariant tying `selected_highlight_id` to `highlights`. -/
theorem deserialize_ranges_valid (j : Json) (p : ProjectState)
    (h : ProjectState.model_validate j = some p) :
    ∀ x ∈ p.highlights, x.time_range.Valid := by
  cases j with
  | obj fs =>
    simp only [ProjectState.model_validate] at h
    rcases h1 : (fs.lookup "project_name").bind parseStr with _ | nm
    · simp only [h1] at h
      exact Option.noConfusion h
    · simp only [h1] at h
      rcases h2 : (fs.lookup "video_file").getD .null with _ | b | q | st | xs | vfs <;>
        simp only [h2] at h
      · exact validateRest_valid fs nm none p h
      all_goals split at h
      all_goals try exact Option.noConfusion h
      all_goals rename_i v hv
      all_goals exact validateRest_valid fs nm (some v) p h
  | null => exact Option.noConfusion h
  | bool b => exact Option.noConfusion h
  | num q => exact Option.noConfusion h
  | str s2 => exact Option.noConfusion h
  | arr xs => exact Option.noConfusion h

/-- C7 witness: at the dumped concrete state, the produced highlights all
carry valid ranges — instantiated at its one highlight. -/
theorem deserialize_ranges_valid_witness :
    TimeRange.Valid ⟨10, 25⟩ :=
  deserialize_ranges_valid (ProjectState.model_dump rtState) rtState
    (by with_unfolding_all exact rfl)
    ⟨"serialize-test", "Serialization Highlight", ⟨10, 25⟩,
      some "Test serialization", ["boxing", "demo"]⟩ (by decide)

/-- C4 witness: both spec examples at once — the highlight `[10, 20]` nudged
by `-15` becomes `[0, 5]`, and the highlight `[5, 15]` nudged by `-15`
collapses (`end` `0`, `start` clamped to `0`) and fails with a validation
error. -/
theorem nudge_spec_witness :
    nudge nudgeState (-15)
      = .ok ⟨"Fight Night", none, [⟨"h1", "Jab", ⟨0, 5⟩, none, []⟩],
          some "h1", []⟩ ∧
    nudge jabState (-15) = .error .validationError := by
  constructor
  · have h := (nudge_spec nudgeState "h1" [] nudgeHighlight [] (-15) rfl
      (by decide) rfl rfl (by simp)).1 (by norm_num [nudgeHighlight])
    with_unfolding_all exact h
  · exact (nudge_spec jabState "h1" [] jabHighlight [] (-15) rfl
      (by decide) rfl rfl (by simp)).2 (by norm_num [jabHighlight])

/-- C8 counterexample: constructing a `VideoFile` with the empty path
succeeds (the model declares no constraint on `path`), where the claim says
it must fail with a `ValidationError`. -/
theorem videoFile_empty_path_cex :
    VideoFile.create "" none none none none
      = .ok ⟨"", none, none, none, none⟩ ∧
    ∀ e : ModelError, VideoFile.create "" none none none none ≠ .error e :=
  ⟨rfl, fun _ h => Except.noConfusion h⟩

/-- C8 amended: `VideoFile.create` succeeds on every input — the empty
string included — storing `path`, `duration`, `fps`, `width` and `height`
verbatim (each metadata field may be absent). -/
theorem videoFile_create_total (path : String) (duration fps : Option ℚ)
    (width height : Option ℤ) :
    VideoFile.create path duration fps width height
      = .ok ⟨path, duration, fps, width, height⟩ :=
  rfl

/-- C9 counterexample: a highlight with id `""` exists, yet
`select_highlight("")` answers the 400 "highlight_id is required" error
instead of selecting it — the falsiness guard fires before the existence
scan. -/
theorem select_empty_id_cex :
    (∃ h ∈ emptyIdState.highlights, h.id = "") ∧
    select_highlight emptyIdState "" = .error .requiredError :=
  ⟨⟨emptyIdHighlight, by decide, rfl⟩, rfl⟩

/-- C9 amended: for the empty id the route fails with the required-parameter
error without consulting the highlight list; for a non-empty id it sets
`selected_highlight_id` when some highlight carries the id and fails with
`NotFoundError`, the state unchanged, when none does. -/
theorem select_highlight_spec (p : ProjectState) (hid : String) :
    (hid = "" → select_highlight p hid = .error .requiredError) ∧
    (hid ≠ "" → (∃ h ∈ p.highlights, h.id = hid) →
      select_highlight p hid
        = .ok { p with selected_highlight_id := some hid }) ∧
    (hid ≠ "" → (∀ h ∈ p.highlights, h.id ≠ hid) →
      select_highlight p hid = .error .notFoundError) := by
  refine ⟨?_, ?_, ?_⟩
  · intro h0
    unfold select_highlight
    rw [if_pos h0]
  · rintro h0 ⟨x, hx, hxid⟩
    have hany : p.highlights.any (fun h => h.id == hid) = true :=
      List.any_eq_true.mpr ⟨x, hx, by simpa using hxid⟩
    simp [select_highlight, h0, hany]
  · intro h0 hall
    have hany : p.highlights.any (fun h => h.id == hid) = false := by
      rw [List.any_eq_false]
      intro x hx
      simpa using hall x hx
    simp [select_highlight, h0, hany]

/-- C10 counterexample: two highlights share the id `""` and the selection is
`""`; the claim's reading of `get_selected_highlight` demands the first of
them, but the code returns `None` (falsiness guard). -/
theorem duplicate_empty_id_cex :
    (dupEmptyState.highlights.filter (fun x => x.id == "")).length = 2 ∧
    dupEmptyState.selected_highlight_id = some "" ∧
    dupEmptyState.get_selected_highlight = none :=
  ⟨by decide, rfl, rfl⟩

/-- C10 amended: with several highlights sharing id `d`, `remove_highlight(d)`
removes only the first of them and returns `true`, clearing the selection
exactly when it equals `d` even though a highlight with id `d` remains; and
for a non-empty selected id, `get_selected_highlight` returns the first
highlight carrying it (for the empty id it returns `None`, see the
counterexample). -/
theorem duplicate_id_first_match_spec (p : ProjectState) (d : String)
    (l1 : List Highlight) (h : Highlight) (l2 : List Highlight)
    (hdec : p.highlights = l1 ++ h :: l2) (hd : h.id = d)
    (hl1 : ∀ x ∈ l1, x.id ≠ d) (hdup : ∃ x ∈ l2, x.id = d) :
    (p.remove_highlight d = (true,
      { p with
          highlights := l1 ++ l2
          selected_highlight_id :=
            if p.selected_highlight_id = some d then none
            else p.selected_highlight_id }) ∧
      ∃ x ∈ l1 ++ l2, x.id = d) ∧
    (p.selected_highlight_id = some d → d ≠ "" →
      p.get_selected_highlight = some h) := by
  refine ⟨⟨?_, ?_⟩, ?_⟩
  · unfold ProjectState.remove_highlight
    rw [hdec, removeFirst_append_first d l1 l2 h hd hl1]
  · obtain ⟨x, hx, hxid⟩ := hdup
    exact ⟨x, by simp [hx], hxid⟩
  · intro hsel hne
    simp only [ProjectState.get_selected_highlight, hsel, if_neg hne, hdec]
    exact find_id_append_first d l1 l2 h hd hl1

/-- C10 witness: on a project with two highlights of id `"h1"` (the first
selected), removal pops only the first and clears the selection although the
second remains, and `get_selected_highlight` had returned the first. -/
theorem duplicate_id_first_match_witness :
    dupState.remove_highlight "h1"
      = (true, ⟨"Fight Night", none, [jabHighlightDup], none, []⟩) ∧
    dupState.get_selected_highlight = some jabHighlight := by
  have hs := duplicate_id_first_match_spec dupState "h1" [] jabHighlight
    [jabHighlightDup] rfl rfl (by simp) ⟨jabHighlightDup, by simp, rfl⟩
  refine ⟨?_, hs.2 rfl (by decide)⟩
  with_unfolding_all exact hs.1.1
end HLC
